import Mathlib

/-!
Shallow embedding of the xls netlist scanner and parser declared in
src/xls/netlist/netlist_parser.h. The header gives the Scanner and Parser
interfaces, the token model, the inline body of AtEof, and the zero
initializers of the position counters; the bodies of the remaining member
functions and the netlist data graph (netlist.h) are not among the
sources, so those parts are modelled from the specification, as noted on
each definition.
-/

namespace NetlistRtl

/-- Kinds of tokens the scanner emits (TokenKind in netlist_parser.h). -/
inductive TokenKind where
  | startParams
  | openParen
  | closeParen
  | openBracket
  | closeBracket
  | openBrace
  | closeBrace
  | dot
  | comma
  | colon
  | semicolon
  | equals
  | quote
  | name
  | number
  deriving DecidableEq, Repr

/-- A position in the input text (struct Pos: lineno, colno). The source
uses int64_t counters that start at 0 and only grow, so Nat is faithful. -/
structure Pos where
  lineno : Nat
  colno : Nat
  deriving DecidableEq, Repr

/-- A scanned token (struct Token: kind, pos, value). -/
structure Token where
  kind : TokenKind
  pos : Pos
  value : String
  deriving DecidableEq, Repr

/-- Scanner state: the remaining characters of the text (the header keeps
the full text plus an index; only the suffix from the index on is ever
read), the position counters (initialized to 0 in the header), and the
one-token lookahead slot. -/
structure Scanner where
  rest : List Char
  lineno : Nat
  colno : Nat
  lookahead : Option Token
  deriving DecidableEq, Repr

/-- Scanner construction from the whole text, with the header's field
initializers: index at the start, lineno = 0, colno = 0, no lookahead. -/
def mkScanner (text : String) : Scanner :=
  ⟨text.toList, 0, 0, none⟩

/-- Modelled from the spec: position update of PopCharOrDie, whose body is
not among the sources. Every consumed character advances colno; a newline
increments lineno and resets colno to the line start. -/
def advancePos (c : Char) (ln col : Nat) : Nat × Nat :=
  if c = '\n' then (ln + 1, 0) else (ln, col + 1)

/-- Whitespace characters discarded by the scanner. -/
def isWs (c : Char) : Bool :=
  c = ' ' || c = '\t' || c = '\n' || c = '\r'

/-- Modelled from the spec: the tail of a line comment is dropped up to
(but not including) the terminating newline, which is then discarded as
whitespace. Returns the remaining characters and updated position. -/
def dropToEol : List Char → Nat → Nat → List Char × Nat × Nat
  | [], ln, col => ([], ln, col)
  | c :: cs, ln, col =>
    if c = '\n' then (c :: cs, ln, col)
    else dropToEol cs ln (col + 1)

/-- Modelled from the spec: drop characters until a star immediately
followed by the terminator character t2 has been consumed (the closing of
a block comment when t2 is a slash, of an attribute when t2 is a closing
paren); prev carries the previously consumed character. -/
def dropToTermEnd (t2 : Char) : Char → List Char → Nat → Nat → List Char × Nat × Nat
  | _, [], ln, col => ([], ln, col)
  | prev, c :: cs, ln, col =>
    if prev = '*' ∧ c = t2 then
      let a := advancePos c ln col
      (cs, a.1, a.2)
    else
      let a := advancePos c ln col
      dropToTermEnd t2 c cs a.1 a.2

/-- Modelled from the spec: the loop of DropIgnoredChars, fuel-indexed.
At each step it discards whitespace, a slash-slash line comment, a block
comment, or an attribute annotation delimited by a paired bracket-star
form, and stops at the first character that starts a token. -/
def dropIgnored : Nat → List Char → Nat → Nat → List Char × Nat × Nat
  | 0, cs, ln, col => (cs, ln, col)
  | fuel + 1, cs, ln, col =>
    match cs with
    | [] => ([], ln, col)
    | c :: cs1 =>
      if isWs c then
        let a := advancePos c ln col
        dropIgnored fuel cs1 a.1 a.2
      else if c = '/' then
        match cs1 with
        | '/' :: cs2 =>
          let r := dropToEol cs2 ln (col + 2)
          dropIgnored fuel r.1 r.2.1 r.2.2
        | '*' :: cs2 =>
          let r := dropToTermEnd '/' '0' cs2 ln (col + 2)
          dropIgnored fuel r.1 r.2.1 r.2.2
        | _ => (c :: cs1, ln, col)
      else if c = '(' then
        match cs1 with
        | '*' :: cs2 =>
          let r := dropToTermEnd ')' '0' cs2 ln (col + 2)
          dropIgnored fuel r.1 r.2.1 r.2.2
        | _ => (c :: cs1, ln, col)
      else (c :: cs1, ln, col)

/-- Modelled from the spec: DropIgnoredChars, whose body is not among the
sources. Discards whitespace, comments, and attributes from the front of
the remaining text; every loop iteration consumes at least one character,
so fuel one larger than the remaining length suffices. -/
def dropIgnoredChars (s : Scanner) : Scanner :=
  let r := dropIgnored (s.rest.length + 1) s.rest s.lineno s.colno
  { s with rest := r.1, lineno := r.2.1, colno := r.2.2 }

/-- Result of consuming a maximal run of characters. -/
structure RunResult where
  taken : List Char
  rest : List Char
  ln : Nat
  col : Nat
  deriving DecidableEq, Repr

/-- Modelled from the spec: consume the maximal run of characters
satisfying p, advancing the position per character. -/
def consumeRun (p : Char → Bool) : List Char → Nat → Nat → RunResult
  | [], ln, col => ⟨[], [], ln, col⟩
  | c :: cs, ln, col =>
    if p c then
      let a := advancePos c ln col
      let r := consumeRun p cs a.1 a.2
      ⟨c :: r.taken, r.rest, r.ln, r.col⟩
    else ⟨[], c :: cs, ln, col⟩

/-- A character that may start a plain (non-escaped) name. -/
def isNameStart (c : Char) : Bool :=
  c.isAlpha || c = '_'

/-- A character that may continue a plain name. -/
def isNameCont (c : Char) : Bool :=
  c.isAlpha || c.isDigit || c = '_' || c = '$'

/-- Lexical scan errors and parse errors share one error shape: an error
kind, the offending position, and a message. -/
inductive ErrKind where
  | LexicalError
  | SyntaxError
  | ResolutionError
  deriving DecidableEq, Repr

/-- An error produced by the scanner or the parser, carrying a Pos. -/
structure ParseError where
  kind : ErrKind
  pos : Pos
  msg : String
  deriving DecidableEq, Repr

/-- Build the scanner state after consuming one character c ahead of cs. -/
def consume1 (s : Scanner) (c : Char) (cs : List Char) : Scanner :=
  let a := advancePos c s.lineno s.colno
  { s with rest := cs, lineno := a.1, colno := a.2 }

/-- Modelled from the spec: PeekInternal, whose body is not among the
sources. Drops ignored characters, then classifies the next token:
punctuation by one- or two-character lookahead with the two-character
form checked first, names (plain or escaped), and plain decimal numbers.
The token carries the position of its first character. -/
def peekInternal (s : Scanner) : Except ParseError (Token × Scanner) :=
  let s1 := dropIgnoredChars s
  match s1.rest with
  | [] => .error ⟨.LexicalError, ⟨s1.lineno, s1.colno⟩, "expected token, got EOF"⟩
  | c :: cs =>
    let pos : Pos := ⟨s1.lineno, s1.colno⟩
    if c = '#' then
      match cs with
      | '(' :: cs2 =>
        .ok (⟨.startParams, pos, ""⟩, { s1 with rest := cs2, colno := s1.colno + 2 })
      | _ => .error ⟨.LexicalError, pos, "unexpected character after hash"⟩
    else if c = '(' then .ok (⟨.openParen, pos, ""⟩, consume1 s1 c cs)
    else if c = ')' then .ok (⟨.closeParen, pos, ""⟩, consume1 s1 c cs)
    else if c = '[' then .ok (⟨.openBracket, pos, ""⟩, consume1 s1 c cs)
    else if c = ']' then .ok (⟨.closeBracket, pos, ""⟩, consume1 s1 c cs)
    else if c = '\x7b' then .ok (⟨.openBrace, pos, ""⟩, consume1 s1 c cs)
    else if c = '\x7d' then .ok (⟨.closeBrace, pos, ""⟩, consume1 s1 c cs)
    else if c = '.' then .ok (⟨.dot, pos, ""⟩, consume1 s1 c cs)
    else if c = ',' then .ok (⟨.comma, pos, ""⟩, consume1 s1 c cs)
    else if c = ':' then .ok (⟨.colon, pos, ""⟩, consume1 s1 c cs)
    else if c = ';' then .ok (⟨.semicolon, pos, ""⟩, consume1 s1 c cs)
    else if c = '=' then .ok (⟨.equals, pos, ""⟩, consume1 s1 c cs)
    else if c = '\'' then .ok (⟨.quote, pos, ""⟩, consume1 s1 c cs)
    else if isNameStart c then
      let a := advancePos c s1.lineno s1.colno
      let r := consumeRun isNameCont cs a.1 a.2
      .ok (⟨.name, pos, (c :: r.taken).asString⟩,
           { s1 with rest := r.rest, lineno := r.ln, colno := r.col })
    else if c = '\\' then
      let a := advancePos c s1.lineno s1.colno
      let r := consumeRun (fun d => !isWs d) cs a.1 a.2
      if r.taken.isEmpty then
        .error ⟨.LexicalError, pos, "empty escaped name"⟩
      else
        .ok (⟨.name, pos, (c :: r.taken).asString⟩,
             { s1 with rest := r.rest, lineno := r.ln, colno := r.col })
    else if c.isDigit then
      let a := advancePos c s1.lineno s1.colno
      let r := consumeRun Char.isDigit cs a.1 a.2
      .ok (⟨.number, pos, (c :: r.taken).asString⟩,
           { s1 with rest := r.rest, lineno := r.ln, colno := r.col })
    else .error ⟨.LexicalError, pos, "unexpected character"⟩

/-- Modelled from the spec: Peek, whose body is not among the sources.
Returns the lookahead token when present; otherwise scans a token and
stores it in the lookahead slot without consuming it from the caller's
point of view. -/
def peek (s : Scanner) : Except ParseError (Token × Scanner) :=
  match s.lookahead with
  | some t => .ok (t, s)
  | none =>
    match peekInternal s with
    | .error e => .error e
    | .ok (t, s1) => .ok (t, { s1 with lookahead := some t })

/-- Modelled from the spec: Pop, whose body is not among the sources.
Returns the current token and advances past it by clearing the lookahead
slot that Peek filled. -/
def pop (s : Scanner) : Except ParseError (Token × Scanner) :=
  match peek s with
  | .error e => .error e
  | .ok (t, s1) => .ok (t, { s1 with lookahead := none })

/-- AtEof as defined inline in the header: first drop ignored characters,
then report whether the character index has reached the end of the text.
Returns the updated scanner alongside the answer (the C++ method mutates
the scanner in place). -/
def atEof (s : Scanner) : Bool × Scanner :=
  let s1 := dropIgnoredChars s
  (s1.rest.isEmpty, s1)

/-- Sequence of tokens obtained by repeatedly popping until an error,
fuel-indexed; used to state frame properties of the scanner. -/
def tokensFrom : Nat → Scanner → List Token
  | 0, _ => []
  | fuel + 1, s =>
    match pop s with
    | .error _ => []
    | .ok (t, s1) => t :: tokensFrom fuel s1

/-- Modelled from the spec: NetDeclKind (declared in netlist.h, which is
not among the sources): classifies a net declaration. -/
inductive NetDeclKind where
  | input
  | output
  | wire
  deriving DecidableEq, Repr

/-- An inclusive bit range, struct Range in netlist_parser.h: high, low. -/
structure Range where
  high : Nat
  low : Nat
  deriving DecidableEq, Repr

/-- Modelled from the spec: a NetRef (netlist.h is not among the sources)
is the shared identity of a declared net, represented as a stable index
into the declaring module's net table. -/
abbrev NetRef := Nat

/-- Modelled from the spec: one declared net of a module. -/
structure NetEntry where
  name : String
  kind : NetDeclKind
  range : Option Range
  deriving DecidableEq, Repr

/-- Modelled from the spec: a CellLibraryEntry (cell_library.h is not
among the sources) supplies the cell type name and its port list. -/
structure CellLibraryEntry where
  name : String
  ports : List String
  deriving DecidableEq, Repr

/-- The external cell library: a read-only list of entries looked up by
name. -/
abbrev CellLibrary := List CellLibraryEntry

/-- Modelled from the spec: a resolved cell type is either an entry of
the external cell library or a module parsed earlier in this file. -/
inductive CellType where
  | libraryEntry (e : CellLibraryEntry)
  | parsedModule (name : String) (ports : List String)
  deriving DecidableEq, Repr

/-- Port list of a resolved cell type, used to validate port names. -/
def cellTypePorts : CellType → List String
  | .libraryEntry e => e.ports
  | .parsedModule _ ports => ports

/-- Modelled from the spec: a cell instance: resolved cell type, instance
name, optional parameter bindings, and port-name to NetRef connections. -/
structure Cell where
  cellType : CellType
  instanceName : String
  params : List (String × Nat)
  connections : List (String × NetRef)
  deriving DecidableEq, Repr

/-- Modelled from the spec: the right-hand side of an assignment is a net
reference or a literal constant. -/
inductive AssignRhs where
  | ref (r : NetRef)
  | literal (v : Nat)
  deriving DecidableEq, Repr

/-- Modelled from the spec: one continuous assignment, lhs and rhs with
optional bit ranges. -/
structure Assignment where
  lhs : NetRef
  lhsRange : Option Range
  rhs : AssignRhs
  rhsRange : Option Range
  deriving DecidableEq, Repr

/-- Modelled from the spec: a Module (netlist.h is not among the sources)
owns its declared nets, cell instances, and assignments, and records its
port list. -/
structure Module where
  name : String
  ports : List String
  nets : List NetEntry
  cells : List Cell
  assignments : List Assignment
  deriving DecidableEq, Repr

/-- Modelled from the spec: the Netlist root owns all parsed Modules in
declaration order. -/
structure Netlist where
  modules : List Module
  deriving DecidableEq, Repr

/-- Index of the first net entry with the given name. -/
def findNetIdx : List NetEntry → String → Option Nat
  | [], _ => none
  | e :: rest, n =>
    if e.name = n then some 0
    else (findNetIdx rest n).map (· + 1)

/-- Modelled from the spec: lookup from net name to the module's owned
NetRef; every textual occurrence of a name resolves to this identity. -/
def resolveNet (m : Module) (n : String) : Option NetRef :=
  findNetIdx m.nets n

/-- The declared net names of a module, in declaration order. -/
def netNames (m : Module) : List String :=
  m.nets.map NetEntry.name

/-- Modelled from the spec: declare a new net; re-declaring an existing
net name within the same module is a ResolutionError carrying the Pos of
the offending declaration, not a silent overwrite. -/
def addNet (m : Module) (n : String) (kind : NetDeclKind) (r : Option Range)
    (pos : Pos) : Except ParseError Module :=
  match resolveNet m n with
  | some _ => .error ⟨.ResolutionError, pos, "duplicate net declaration"⟩
  | none => .ok { m with nets := m.nets ++ [⟨n, kind, r⟩] }

/-- Lookup of a cell type name in the external cell library. -/
def libLookup : CellLibrary → String → Option CellLibraryEntry
  | [], _ => none
  | e :: rest, n => if e.name = n then some e else libLookup rest n

/-- Lookup of a module by name among the already-parsed modules. -/
def findModule : List Module → String → Option Module
  | [], _ => none
  | m :: rest, n => if m.name = n then some m else findModule rest n

/-- Modelled from the spec: resolution of a cell type name: look up first
in the externally supplied cell library; if absent, look up among the
modules already parsed in this file; if neither resolves, fail with a
ResolutionError (unresolved cell type). -/
def resolveCellType (lib : CellLibrary) (modules : List Module) (n : String)
    (pos : Pos) : Except ParseError CellType :=
  match libLookup lib n with
  | some e => .ok (.libraryEntry e)
  | none =>
    match findModule modules n with
    | some m => .ok (.parsedModule m.name m.ports)
    | none => .error ⟨.ResolutionError, pos, "unresolved cell type"⟩

/-- Modelled from the spec: PopNameOrError: pops a token and requires it
to be a name, also returning the token's Pos. -/
def popNameOrError (sc : Scanner) : Except ParseError (String × Pos × Scanner) :=
  match pop sc with
  | .error e => .error e
  | .ok (t, sc1) =>
    if t.kind = .name then .ok (t.value, t.pos, sc1)
    else .error ⟨.SyntaxError, t.pos, "expected name token"⟩

/-- Decimal value of a digit string (the scanner only emits plain decimal
number tokens). -/
def decToNat (cs : List Char) : Nat :=
  cs.foldl (fun a c => a * 10 + (c.toNat - 48)) 0

/-- Modelled from the spec: PopNumberOrError: pops a token and requires
it to be a number, returning its decimal value and Pos. -/
def popNumberOrError (sc : Scanner) : Except ParseError (Nat × Pos × Scanner) :=
  match pop sc with
  | .error e => .error e
  | .ok (t, sc1) =>
    if t.kind = .number then .ok (decToNat t.value.toList, t.pos, sc1)
    else .error ⟨.SyntaxError, t.pos, "expected number token"⟩

/-- Modelled from the spec: DropTokenOrError: pops a token of the target
kind, or fails with a SyntaxError at that token's Pos. -/
def dropTokenOrError (target : TokenKind) (sc : Scanner) : Except ParseError Scanner :=
  match pop sc with
  | .error e => .error e
  | .ok (t, sc1) =>
    if t.kind = target then .ok sc1
    else .error ⟨.SyntaxError, t.pos, "unexpected token kind"⟩

/-- Modelled from the spec: DropKeywordOrError: pops a name token with
the given value, or fails with a SyntaxError. -/
def dropKeywordOrError (kw : String) (sc : Scanner) : Except ParseError Scanner :=
  match pop sc with
  | .error e => .error e
  | .ok (t, sc1) =>
    if t.kind = .name ∧ t.value = kw then .ok sc1
    else .error ⟨.SyntaxError, t.pos, "expected keyword"⟩

/-- Modelled from the spec: TryDropToken: peeks at the head of the token
stream and drops it when it has the target kind. -/
def tryDropToken (target : TokenKind) (sc : Scanner) : Bool × Scanner :=
  match peek sc with
  | .error _ => (false, sc)
  | .ok (t, sc1) =>
    if t.kind = target then (true, { sc1 with lookahead := none })
    else (false, sc1)

/-- Modelled from the spec: TryDropKeyword: peeks at the head of the
token stream and drops it when it is a name token with the given value. -/
def tryDropKeyword (kw : String) (sc : Scanner) : Bool × Scanner :=
  match peek sc with
  | .error _ => (false, sc)
  | .ok (t, sc1) =>
    if t.kind = .name ∧ t.value = kw then (true, { sc1 with lookahead := none })
    else (false, sc1)

/-- Modelled from the spec: ParseOptionalRange: with no open bracket
there is no range; a full high-colon-low form is accepted in both modes
but a range with high smaller than low is a ResolutionError rather than
being swapped; a bare index is accepted only when strict is false and is
normalized to the degenerate range with high and low both equal to the
index; under strict a bare index is a SyntaxError. -/
def parseOptionalRange (strict : Bool) (sc : Scanner) :
    Except ParseError (Option Range × Scanner) :=
  match tryDropToken .openBracket sc with
  | (false, sc1) => .ok (none, sc1)
  | (true, sc1) =>
    match popNumberOrError sc1 with
    | .error e => .error e
    | .ok (high, hpos, sc2) =>
      match tryDropToken .colon sc2 with
      | (true, sc3) =>
        match popNumberOrError sc3 with
        | .error e => .error e
        | .ok (low, _, sc4) =>
          match dropTokenOrError .closeBracket sc4 with
          | .error e => .error e
          | .ok sc5 =>
            if high < low then
              .error ⟨.ResolutionError, hpos, "invalid range high smaller than low"⟩
            else .ok (some ⟨high, low⟩, sc5)
      | (false, sc3) =>
        if strict then .error ⟨.SyntaxError, hpos, "expected colon in range"⟩
        else
          match dropTokenOrError .closeBracket sc3 with
          | .error e => .error e
          | .ok sc4 => .ok (some ⟨high, high⟩, sc4)

/-- Error used when a fuel-indexed parsing loop runs out of fuel; never
reached for the fuel bounds chosen from the remaining input length. -/
def fuelErr {α : Type} (sc : Scanner) : Except ParseError α :=
  .error ⟨.LexicalError, ⟨sc.lineno, sc.colno⟩, "internal fuel exhausted"⟩

/-- Modelled from the spec: name-list loop of ParseNetDecl: each declared
name with its optional strict range becomes an owned net of the module;
the list is comma-separated and semicolon-terminated. -/
def parseNetDeclLoop : Nat → Module → NetDeclKind → Scanner →
    Except ParseError (Module × Scanner)
  | 0, _, _, sc => fuelErr sc
  | fuel + 1, m, kind, sc =>
    match popNameOrError sc with
    | .error e => .error e
    | .ok (n, pos, sc1) =>
      match parseOptionalRange true sc1 with
      | .error e => .error e
      | .ok (r, sc2) =>
        match addNet m n kind r pos with
        | .error e => .error e
        | .ok m1 =>
          match tryDropToken .comma sc2 with
          | (true, sc3) => parseNetDeclLoop fuel m1 kind sc3
          | (false, sc3) =>
            match dropTokenOrError .semicolon sc3 with
            | .error e => .error e
            | .ok sc4 => .ok (m1, sc4)

/-- Modelled from the spec: ParseNetDecl: parses a net declaration at
module scope after its kind keyword has been consumed. -/
def parseNetDecl (m : Module) (kind : NetDeclKind) (sc : Scanner) :
    Except ParseError (Module × Scanner) :=
  parseNetDeclLoop (sc.rest.length + 2) m kind sc

/-- Modelled from the spec: ParseOneAssignment: the lhs name has already
been read; resolves the lhs against the module's nets, consumes the
equals sign, and reads a net reference (with optional index range) or a
literal number as the rhs, recording the assignment on the module. -/
def parseOneAssignment (m : Module) (lhsName : String) (lhsRange : Option Range)
    (lpos : Pos) (sc : Scanner) : Except ParseError (Module × Scanner) :=
  match resolveNet m lhsName with
  | none => .error ⟨.ResolutionError, lpos, "unknown net in assignment"⟩
  | some lhs =>
    match dropTokenOrError .equals sc with
    | .error e => .error e
    | .ok sc1 =>
      match pop sc1 with
      | .error e => .error e
      | .ok (t, sc2) =>
        if t.kind = .number then
          .ok ({ m with assignments :=
                  m.assignments ++ [⟨lhs, lhsRange, .literal (decToNat t.value.toList), none⟩] },
               sc2)
        else if t.kind = .name then
          match parseOptionalRange false sc2 with
          | .error e => .error e
          | .ok (rr, sc3) =>
            match resolveNet m t.value with
            | none => .error ⟨.ResolutionError, t.pos, "unknown net in assignment"⟩
            | some rhs =>
              .ok ({ m with assignments :=
                      m.assignments ++ [⟨lhs, lhsRange, .ref rhs, rr⟩] }, sc3)
        else .error ⟨.SyntaxError, t.pos, "expected name or number"⟩

/-- Modelled from the spec: the comma-separated loop of ParseAssignDecl,
each element a single assignment, terminated by a semicolon. -/
def parseAssignLoop : Nat → Module → Scanner → Except ParseError (Module × Scanner)
  | 0, _, sc => fuelErr sc
  | fuel + 1, m, sc =>
    match popNameOrError sc with
    | .error e => .error e
    | .ok (lhsName, lpos, sc1) =>
      match parseOptionalRange false sc1 with
      | .error e => .error e
      | .ok (lhsRange, sc2) =>
        match parseOneAssignment m lhsName lhsRange lpos sc2 with
        | .error e => .error e
        | .ok (m1, sc3) =>
          match tryDropToken .comma sc3 with
          | (true, sc4) => parseAssignLoop fuel m1 sc4
          | (false, sc4) =>
            match dropTokenOrError .semicolon sc4 with
            | .error e => .error e
            | .ok sc5 => .ok (m1, sc5)

/-- Modelled from the spec: ParseAssignDecl: parses an assign declaration
at module scope after the assign keyword has been consumed. -/
def parseAssignDecl (m : Module) (sc : Scanner) : Except ParseError (Module × Scanner) :=
  parseAssignLoop (sc.rest.length + 2) m sc

/-- Modelled from the spec: ParseCellModule: pops the cell type name and
resolves it, library first, then already-parsed modules. -/
def parseCellModule (lib : CellLibrary) (modules : List Module) (sc : Scanner) :
    Except ParseError (CellType × Scanner) :=
  match popNameOrError sc with
  | .error e => .error e
  | .ok (n, pos, sc1) =>
    match resolveCellType lib modules n pos with
    | .error e => .error e
    | .ok ct => .ok (ct, sc1)

/-- Modelled from the spec: parameter-binding loop of an instance
parameter list in start-params form: dot, name, open paren, number,
close paren, comma-separated, ending at the close paren of the list. -/
def parseParamLoop : Nat → List (String × Nat) → Scanner →
    Except ParseError (List (String × Nat) × Scanner)
  | 0, _, sc => fuelErr sc
  | fuel + 1, acc, sc =>
    match dropTokenOrError .dot sc with
    | .error e => .error e
    | .ok sc1 =>
      match popNameOrError sc1 with
      | .error e => .error e
      | .ok (pname, _, sc2) =>
        match dropTokenOrError .openParen sc2 with
        | .error e => .error e
        | .ok sc3 =>
          match popNumberOrError sc3 with
          | .error e => .error e
          | .ok (v, _, sc4) =>
            match dropTokenOrError .closeParen sc4 with
            | .error e => .error e
            | .ok sc5 =>
              match tryDropToken .comma sc5 with
              | (true, sc6) => parseParamLoop fuel (acc ++ [(pname, v)]) sc6
              | (false, sc6) =>
                match dropTokenOrError .closeParen sc6 with
                | .error e => .error e
                | .ok sc7 => .ok (acc ++ [(pname, v)], sc7)

/-- Modelled from the spec: named-port-connection loop of an instance:
dot, port name (validated against the cell type's port schema; an
unknown port name is a ResolutionError), parenthesized net reference
resolved against the module's nets, comma-separated. -/
def parseConnLoop : Nat → Module → List String → List (String × NetRef) → Scanner →
    Except ParseError (List (String × NetRef) × Scanner)
  | 0, _, _, _, sc => fuelErr sc
  | fuel + 1, m, ports, acc, sc =>
    match dropTokenOrError .dot sc with
    | .error e => .error e
    | .ok sc1 =>
      match popNameOrError sc1 with
      | .error e => .error e
      | .ok (port, ppos, sc2) =>
        if ports.any (fun p => p == port) then
          match dropTokenOrError .openParen sc2 with
          | .error e => .error e
          | .ok sc3 =>
            match popNameOrError sc3 with
            | .error e => .error e
            | .ok (netName, npos, sc4) =>
              match parseOptionalRange false sc4 with
              | .error e => .error e
              | .ok (_, sc5) =>
                match resolveNet m netName with
                | none => .error ⟨.ResolutionError, npos, "unknown net in connection"⟩
                | some r =>
                  match dropTokenOrError .closeParen sc5 with
                  | .error e => .error e
                  | .ok sc6 =>
                    match tryDropToken .comma sc6 with
                    | (true, sc7) => parseConnLoop fuel m ports (acc ++ [(port, r)]) sc7
                    | (false, sc7) => .ok (acc ++ [(port, r)], sc7)
        else .error ⟨.ResolutionError, ppos, "unknown port name"⟩

/-- Modelled from the spec: the optional parameter list of an instance:
present exactly when the start-params token is next. -/
def parseOptParams (sc : Scanner) : Except ParseError (List (String × Nat) × Scanner) :=
  match tryDropToken .startParams sc with
  | (true, sc1) => parseParamLoop (sc1.rest.length + 2) [] sc1
  | (false, sc1) => .ok ([], sc1)

/-- Modelled from the spec: the possibly empty connection list of an
instance, up to and including its closing paren. -/
def parseConnList (m : Module) (ports : List String) (sc : Scanner) :
    Except ParseError (List (String × NetRef) × Scanner) :=
  match tryDropToken .closeParen sc with
  | (true, sc1) => .ok ([], sc1)
  | (false, sc1) =>
    match parseConnLoop (sc1.rest.length + 2) m ports [] sc1 with
    | .error e => .error e
    | .ok (conns, sc2) =>
      match dropTokenOrError .closeParen sc2 with
      | .error e => .error e
      | .ok sc3 => .ok (conns, sc3)

/-- Modelled from the spec: ParseInstance: cell type resolution, optional
parameter list in start-params form, instance name, parenthesized named
port connections, semicolon; appends the cell instance to the module. -/
def parseInstance (lib : CellLibrary) (modules : List Module) (m : Module)
    (sc : Scanner) : Except ParseError (Module × Scanner) :=
  match parseCellModule lib modules sc with
  | .error e => .error e
  | .ok (ct, sc1) =>
    match parseOptParams sc1 with
    | .error e => .error e
    | .ok (params, sc3) =>
      match popNameOrError sc3 with
      | .error e => .error e
      | .ok (instName, _, sc4) =>
        match dropTokenOrError .openParen sc4 with
        | .error e => .error e
        | .ok sc5 =>
          match parseConnList m (cellTypePorts ct) sc5 with
          | .error e => .error e
          | .ok (conns, sc9) =>
            match dropTokenOrError .semicolon sc9 with
            | .error e => .error e
            | .ok sc10 =>
              .ok ({ m with cells := m.cells ++ [⟨ct, instName, params, conns⟩] }, sc10)

/-- Modelled from the spec: ParseModuleStatement: dispatches on the
leading keyword to a net declaration, an assign declaration, or a cell
instantiation. -/
def parseModuleStatement (lib : CellLibrary) (modules : List Module) (m : Module)
    (sc : Scanner) : Except ParseError (Module × Scanner) :=
  match tryDropKeyword "wire" sc with
  | (true, sc1) => parseNetDecl m .wire sc1
  | (false, sc1) =>
    match tryDropKeyword "input" sc1 with
    | (true, sc2) => parseNetDecl m .input sc2
    | (false, sc2) =>
      match tryDropKeyword "output" sc2 with
      | (true, sc3) => parseNetDecl m .output sc3
      | (false, sc3) =>
        match tryDropKeyword "assign" sc3 with
        | (true, sc4) => parseAssignDecl m sc4
        | (false, sc4) => parseInstance lib modules m sc4

/-- Modelled from the spec: the statement loop of ParseModule, running
until the endmodule keyword. -/
def parseStmtLoop : Nat → CellLibrary → List Module → Module → Scanner →
    Except ParseError (Module × Scanner)
  | 0, _, _, _, sc => fuelErr sc
  | fuel + 1, lib, modules, m, sc =>
    match tryDropKeyword "endmodule" sc with
    | (true, sc1) => .ok (m, sc1)
    | (false, sc1) =>
      match parseModuleStatement lib modules m sc1 with
      | .error e => .error e
      | .ok (m1, sc2) => parseStmtLoop fuel lib modules m1 sc2

/-- Modelled from the spec: name-list loop of PopParenNameList. -/
def parenNamesLoop : Nat → List String → Scanner →
    Except ParseError (List String × Scanner)
  | 0, _, sc => fuelErr sc
  | fuel + 1, acc, sc =>
    match popNameOrError sc with
    | .error e => .error e
    | .ok (n, _, sc1) =>
      match tryDropToken .comma sc1 with
      | (true, sc2) => parenNamesLoop fuel (acc ++ [n]) sc2
      | (false, sc2) =>
        match dropTokenOrError .closeParen sc2 with
        | .error e => .error e
        | .ok sc3 => .ok (acc ++ [n], sc3)

/-- Modelled from the spec: PopParenNameList: a parenthesized,
comma-separated, possibly empty list of names. -/
def popParenNameList (sc : Scanner) : Except ParseError (List String × Scanner) :=
  match dropTokenOrError .openParen sc with
  | .error e => .error e
  | .ok sc1 =>
    match tryDropToken .closeParen sc1 with
    | (true, sc2) => .ok ([], sc2)
    | (false, sc2) => parenNamesLoop (sc2.rest.length + 2) [] sc2

/-- Modelled from the spec: ParseModule: module keyword, module name,
parenthesized port list, semicolon, statements, endmodule. The module
starts with no nets, cells, or assignments. -/
def parseModule (lib : CellLibrary) (modules : List Module) (sc : Scanner) :
    Except ParseError (Module × Scanner) :=
  match dropKeywordOrError "module" sc with
  | .error e => .error e
  | .ok sc1 =>
    match popNameOrError sc1 with
    | .error e => .error e
    | .ok (n, _, sc2) =>
      match popParenNameList sc2 with
      | .error e => .error e
      | .ok (ports, sc3) =>
        match dropTokenOrError .semicolon sc3 with
        | .error e => .error e
        | .ok sc4 => parseStmtLoop (sc4.rest.length + 2) lib modules ⟨n, ports, [], [], []⟩ sc4

/-- Modelled from the spec: the module loop of ParseNetlist: parses
modules top to bottom until end of input, registering each parsed module
so that it is visible as a cell type to the modules parsed after it. -/
def parseModulesLoop : Nat → CellLibrary → List Module → Scanner →
    Except ParseError (List Module × Scanner)
  | 0, _, _, sc => fuelErr sc
  | fuel + 1, lib, modules, sc =>
    match atEof sc with
    | (true, sc1) => .ok (modules, sc1)
    | (false, sc1) =>
      match parseModule lib modules sc1 with
      | .error e => .error e
      | .ok (m, sc2) => parseModulesLoop fuel lib (modules ++ [m]) sc2

/-- Modelled from the spec: ParseNetlist, the sole public entry point:
consumes the scanner in a single left-to-right pass and returns a fully
populated Netlist or a parse error carrying a Pos. -/
def parseNetlist (lib : CellLibrary) (sc : Scanner) : Except ParseError Netlist :=
  match parseModulesLoop (sc.rest.length + 2) lib [] sc with
  | .error e => .error e
  | .ok (modules, _) => .ok ⟨modules⟩

/-- Whether the character list, scanned with the given previously-seen
character, contains a star immediately followed by t2. -/
def hasTermPair (t2 : Char) : Char → List Char → Bool
  | _, [] => false
  | prev, c :: cs => if prev = '*' ∧ c = t2 then true else hasTermPair t2 c cs

/-- Texts consisting solely of whitespace, complete line comments,
complete block comments, and complete attribute annotations. -/
inductive IgnorableText : List Char → Prop where
  | nil : IgnorableText []
  | ws (c : Char) (cs : List Char) : isWs c = true → IgnorableText cs →
      IgnorableText (c :: cs)
  | lineCommentEof (body : List Char) : (∀ c ∈ body, c ≠ '\n') →
      IgnorableText ('/' :: '/' :: body)
  | lineComment (body rest : List Char) : (∀ c ∈ body, c ≠ '\n') →
      IgnorableText ('\n' :: rest) →
      IgnorableText ('/' :: '/' :: (body ++ '\n' :: rest))
  | blockComment (body rest : List Char) : hasTermPair '/' '0' body = false →
      IgnorableText rest →
      IgnorableText ('/' :: '*' :: (body ++ '*' :: '/' :: rest))
  | attr (body rest : List Char) : hasTermPair ')' '0' body = false →
      IgnorableText rest →
      IgnorableText ('(' :: '*' :: (body ++ '*' :: ')' :: rest))

/-- The error kind of a failed computation, for stating error claims. -/
def errKind {α : Type} : Except ParseError α → Option ErrKind
  | .error e => some e.kind
  | .ok _ => none

/-- The Pos of a failed computation, for stating error-position claims. -/
def errPos {α : Type} : Except ParseError α → Option Pos
  | .error e => some e.pos
  | .ok _ => none

/-- C1: for the input text with one module m over ports a and b, two wire
declarations and one assignment, ParseNetlist succeeds and returns exactly
one Module named m with exactly the two declared nets a and b, zero cell
instances, and one assignment whose left side is the NetRef the module
resolves for a and whose right side is the NetRef the module resolves for
b. -/
theorem parseNetlist_endtoend :
    parseNetlist [] (mkScanner "module m(a, b); wire a; wire b; assign a = b; endmodule") =
      .ok ⟨[⟨"m", ["a", "b"], [⟨"a", .wire, none⟩, ⟨"b", .wire, none⟩], [],
            [⟨0, none, .ref 1, none⟩]⟩]⟩ ∧
    resolveNet ⟨"m", ["a", "b"], [⟨"a", .wire, none⟩, ⟨"b", .wire, none⟩], [],
            [⟨0, none, .ref 1, none⟩]⟩ "a" = some 0 ∧
    resolveNet ⟨"m", ["a", "b"], [⟨"a", .wire, none⟩, ⟨"b", .wire, none⟩], [],
            [⟨0, none, .ref 1, none⟩]⟩ "b" = some 1 :=
  ⟨rfl, rfl, rfl⟩

/-- C2: ParseOptionalRange yields the range high 3 low 0 on a full range
under strict parsing, normalizes a bare index to the degenerate range
under non-strict parsing, rejects a bare index under strict parsing with
a SyntaxError, and rejects a range whose high bound is smaller than its
low bound with a ResolutionError instead of swapping the bounds. -/
theorem parseOptionalRange_cases :
    parseOptionalRange true (mkScanner "[3:0]") = .ok (some ⟨3, 0⟩, ⟨[], 0, 5, none⟩) ∧
    parseOptionalRange false (mkScanner "[2]") = .ok (some ⟨2, 2⟩, ⟨[], 0, 3, none⟩) ∧
    parseOptionalRange true (mkScanner "[1]") =
      .error ⟨.SyntaxError, ⟨0, 1⟩, "expected colon in range"⟩ ∧
    parseOptionalRange true (mkScanner "[0:3]") =
      .error ⟨.ResolutionError, ⟨0, 1⟩, "invalid range high smaller than low"⟩ :=
  ⟨rfl, rfl, rfl, rfl⟩

/-- C3: a cell type name absent from the library resolves to a module
exactly when that module was already parsed (single forward pass, no
back-patching): generally, resolution fails with a ResolutionError when
the name is in neither the library nor the already-parsed set, and
succeeds with the module when it is among the already-parsed modules;
concretely, module A instantiated by a later module B succeeds with A as
the cell type, while the reversed order, or A absent entirely, fails the
parse with a ResolutionError. -/
theorem moduleAsCellType_forward_only :
    (∀ (lib : CellLibrary) (modules : List Module) (n : String) (pos : Pos),
        libLookup lib n = none → findModule modules n = none →
        resolveCellType lib modules n pos =
          .error ⟨.ResolutionError, pos, "unresolved cell type"⟩) ∧
    (∀ (lib : CellLibrary) (modules : List Module) (n : String) (pos : Pos) (m : Module),
        libLookup lib n = none → findModule modules n = some m →
        resolveCellType lib modules n pos = .ok (.parsedModule m.name m.ports)) ∧
    parseNetlist [] (mkScanner "module A(); endmodule module B(); A i(); endmodule") =
      .ok ⟨[⟨"A", [], [], [], []⟩,
            ⟨"B", [], [], [⟨.parsedModule "A" [], "i", [], []⟩], []⟩]⟩ ∧
    errKind (parseNetlist []
        (mkScanner "module B(); A i(); endmodule module A(); endmodule")) =
      some .ResolutionError ∧
    errKind (parseNetlist [] (mkScanner "module B(); A i(); endmodule")) =
      some .ResolutionError := by
  refine ⟨?_, ?_, rfl, rfl, rfl⟩
  · intro lib modules n pos h1 h2
    simp [resolveCellType, h1, h2]
  · intro lib modules n pos m h1 h2
    simp [resolveCellType, h1, h2]

/-- Witness for C3 at a concrete instance: with an empty library and no
previously parsed modules, the cell type name A fails to resolve with a
ResolutionError. -/
theorem moduleAsCellType_forward_only_witness :
    resolveCellType [] [] "A" ⟨0, 0⟩ =
      .error ⟨.ResolutionError, ⟨0, 0⟩, "unresolved cell type"⟩ :=
  moduleAsCellType_forward_only.1 [] [] "A" ⟨0, 0⟩ rfl rfl

/-- C4: a cell type name found in the externally supplied cell library
resolves to the library entry regardless of the already-parsed modules
(library takes precedence); concretely, with A both in the library and
parsed as a module, an instantiation of A resolves to the library
entry. -/
theorem cellLibrary_precedence :
    (∀ (lib : CellLibrary) (modules : List Module) (n : String) (pos : Pos)
        (e : CellLibraryEntry),
        libLookup lib n = some e →
        resolveCellType lib modules n pos = .ok (.libraryEntry e)) ∧
    resolveCellType [⟨"A", []⟩] [⟨"A", ["p"], [], [], []⟩] "A" ⟨0, 0⟩ =
      .ok (.libraryEntry ⟨"A", []⟩) ∧
    parseNetlist [⟨"A", []⟩]
        (mkScanner "module A(); endmodule module B(); A i(); endmodule") =
      .ok ⟨[⟨"A", [], [], [], []⟩,
            ⟨"B", [], [], [⟨.libraryEntry ⟨"A", []⟩, "i", [], []⟩], []⟩]⟩ := by
  refine ⟨?_, rfl, rfl⟩
  intro lib modules n pos e h
  simp [resolveCellType, h]

/-- Witness for C4 at a concrete instance: a library entry B shadows any
modules when resolving the cell type name B. -/
theorem cellLibrary_precedence_witness :
    resolveCellType [⟨"B", ["x"]⟩] [⟨"B", [], [], [], []⟩] "B" ⟨0, 0⟩ =
      .ok (.libraryEntry ⟨"B", ["x"]⟩) :=
  cellLibrary_precedence.1 [⟨"B", ["x"]⟩] [⟨"B", [], [], [], []⟩] "B" ⟨0, 0⟩ ⟨"B", ["x"]⟩ rfl

/-- C5: whenever Peek succeeds, a second Peek returns the identical token
without advancing the scanner state at all, and a Pop immediately after
returns that same token and advances past it by clearing the lookahead
slot; the Pop result agrees whether or not the Peek happened first. -/
theorem peek_idempotent_pop_advances (s : Scanner) (t : Token) (s1 : Scanner)
    (h : peek s = .ok (t, s1)) :
    peek s1 = .ok (t, s1) ∧
    pop s1 = .ok (t, { s1 with lookahead := none }) ∧
    pop s = .ok (t, { s1 with lookahead := none }) := by
  have hla : s1.lookahead = some t := by
    unfold peek at h
    cases hl : s.lookahead with
    | some t0 =>
      rw [hl] at h
      simp only [Except.ok.injEq, Prod.mk.injEq] at h
      rw [← h.2, hl, h.1]
    | none =>
      rw [hl] at h
      cases hpi : peekInternal s with
      | error e => rw [hpi] at h; exact absurd h (by simp)
      | ok v =>
        rw [hpi] at h
        obtain ⟨t0, s2⟩ := v
        simp only [Except.ok.injEq, Prod.mk.injEq] at h
        rw [← h.2, h.1]
  have hpk : peek s1 = .ok (t, s1) := by
    unfold peek
    rw [hla]
  refine ⟨hpk, ?_, ?_⟩
  · unfold pop
    rw [hpk]
  · unfold pop
    rw [h]

/-- Witness for C5 at a concrete input: peeking the single name token of
the text a, then peeking and popping again. -/
theorem peek_idempotent_pop_advances_witness :
    peek ⟨[], 0, 1, some ⟨.name, ⟨0, 0⟩, "a"⟩⟩ =
      .ok (⟨.name, ⟨0, 0⟩, "a"⟩, ⟨[], 0, 1, some ⟨.name, ⟨0, 0⟩, "a"⟩⟩) ∧
    pop ⟨[], 0, 1, some ⟨.name, ⟨0, 0⟩, "a"⟩⟩ =
      .ok (⟨.name, ⟨0, 0⟩, "a"⟩, ⟨[], 0, 1, none⟩) ∧
    pop (mkScanner "a") = .ok (⟨.name, ⟨0, 0⟩, "a"⟩, ⟨[], 0, 1, none⟩) :=
  peek_idempotent_pop_advances (mkScanner "a") ⟨.name, ⟨0, 0⟩, "a"⟩
    ⟨[], 0, 1, some ⟨.name, ⟨0, 0⟩, "a"⟩⟩ rfl

/-- C8: every consumed character advances colno, a consumed newline
increments lineno and resets colno to the line start, and tokens carry
the position of their first character: popping the two name tokens of
the text a-newline-b-b yields the first at line 0 column 0 and the second
at line 1 column 0, the second lineno one greater than the first with
colno reset after the newline. -/
theorem position_tracking :
    (∀ (c : Char) (ln col : Nat),
        advancePos c ln col = if c = '\n' then (ln + 1, 0) else (ln, col + 1)) ∧
    pop (mkScanner "a\nbb") =
      .ok (⟨.name, ⟨0, 0⟩, "a"⟩, ⟨['\n', 'b', 'b'], 0, 1, none⟩) ∧
    pop ⟨['\n', 'b', 'b'], 0, 1, none⟩ =
      .ok (⟨.name, ⟨1, 0⟩, "bb"⟩, ⟨[], 1, 2, none⟩) ∧
    (⟨1, 0⟩ : Pos).lineno = (⟨0, 0⟩ : Pos).lineno + 1 ∧
    (⟨1, 0⟩ : Pos).colno = 0 :=
  ⟨fun _ _ _ => rfl, rfl, rfl, rfl, rfl⟩

/-- C9 counterexample: for the input of a space followed by the name a,
the first token of the text is reported at column 1, not at the position
with lineno 0 and colno 0 that the claim asserts for every input. -/
theorem zeroBased_counterexample :
    peek (mkScanner " a") =
      .ok (⟨.name, ⟨0, 1⟩, "a"⟩, ⟨[], 0, 2, some ⟨.name, ⟨0, 1⟩, "a"⟩⟩) ∧
    (⟨0, 1⟩ : Pos) ≠ (⟨0, 0⟩ : Pos) :=
  ⟨rfl, by decide⟩

/-- C9 amended: the scanner position convention is zero-based: lineno and
colno both start at 0, an input whose first character begins a token has
its first token at the position with lineno 0 and colno 0, and a token's
colno is the zero-based offset of its first character within its line, as
the leading-whitespace and leading-newline inputs show. -/
theorem zeroBased_positions :
    (∀ text : String, (mkScanner text).lineno = 0 ∧ (mkScanner text).colno = 0) ∧
    peek (mkScanner "a") =
      .ok (⟨.name, ⟨0, 0⟩, "a"⟩, ⟨[], 0, 1, some ⟨.name, ⟨0, 0⟩, "a"⟩⟩) ∧
    peek (mkScanner "  a") =
      .ok (⟨.name, ⟨0, 2⟩, "a"⟩, ⟨[], 0, 3, some ⟨.name, ⟨0, 2⟩, "a"⟩⟩) ∧
    peek (mkScanner "\n\na") =
      .ok (⟨.name, ⟨2, 0⟩, "a"⟩, ⟨[], 2, 1, some ⟨.name, ⟨2, 0⟩, "a"⟩⟩) :=
  ⟨fun _ => ⟨rfl, rfl⟩, rfl, rfl, rfl⟩

theorem findNetIdx_none_not_mem (nets : List NetEntry) (n : String)
    (h : findNetIdx nets n = none) : n ∉ nets.map NetEntry.name := by
  induction nets with
  | nil => simp
  | cons e rest ih =>
    simp only [findNetIdx] at h
    by_cases he : e.name = n
    · simp [he] at h
    · cases hf : findNetIdx rest n with
      | some k => rw [hf] at h; simp [he] at h
      | none =>
        intro hmem
        rcases List.mem_cons.mp hmem with h1 | h1
        · exact he h1.symm
        · exact ih hf h1

theorem addNet_nodup (m : Module) (n : String) (kind : NetDeclKind)
    (r : Option Range) (pos : Pos) (m1 : Module)
    (h : addNet m n kind r pos = .ok m1) (hnd : (netNames m).Nodup) :
    (netNames m1).Nodup := by
  unfold addNet at h
  cases hf : resolveNet m n with
  | some k => rw [hf] at h; cases h
  | none =>
    rw [hf] at h
    simp only [Except.ok.injEq] at h
    subst h
    have hmem := findNetIdx_none_not_mem m.nets n hf
    have : netNames { m with nets := m.nets ++ [⟨n, kind, r⟩] } =
        netNames m ++ [n] := by
      simp [netNames]
    rw [this]
    simp only [List.nodup_append, List.nodup_cons, List.not_mem_nil,
      not_false_iff, List.nodup_nil, and_true, true_and]
    refine ⟨hnd, ?_⟩
    intro a ha hb
    rw [List.mem_singleton.mp hb] at ha
    exact hmem ha

theorem parseOneAssignment_nets (m : Module) (ln : String) (lr : Option Range)
    (lpos : Pos) (sc : Scanner) (m1 : Module) (sc1 : Scanner)
    (h : parseOneAssignment m ln lr lpos sc = .ok (m1, sc1)) :
    m1.nets = m.nets := by
  unfold parseOneAssignment at h
  repeat' split at h
  all_goals cases h
  all_goals rfl

theorem parseAssignLoop_nets : ∀ (fuel : Nat) (m : Module) (sc : Scanner)
    (m1 : Module) (sc1 : Scanner),
    parseAssignLoop fuel m sc = .ok (m1, sc1) → m1.nets = m.nets := by
  intro fuel
  induction fuel with
  | zero =>
    intro m sc m1 sc1 h
    simp [parseAssignLoop, fuelErr] at h
  | succ fuel ih =>
    intro m sc m1 sc1 h
    simp only [parseAssignLoop] at h
    split at h
    · cases h
    · rename_i v
      split at h
      · cases h
      · rename_i v2
        split at h
        · cases h
        · rename_i m2 sc3 heq
          split at h
          · rename_i sc4
            have h2 := parseOneAssignment_nets _ _ _ _ _ _ _ heq
            rw [ih _ _ _ _ h, h2]
          · rename_i sc4
            split at h
            · cases h
            · simp only [Except.ok.injEq, Prod.mk.injEq] at h
              rw [← h.1]
              exact parseOneAssignment_nets _ _ _ _ _ _ _ heq

theorem parseAssignDecl_nets (m : Module) (sc : Scanner) (m1 : Module)
    (sc1 : Scanner) (h : parseAssignDecl m sc = .ok (m1, sc1)) :
    m1.nets = m.nets :=
  parseAssignLoop_nets _ _ _ _ _ h

theorem parseNetDeclLoop_nodup : ∀ (fuel : Nat) (m : Module) (kind : NetDeclKind)
    (sc : Scanner) (m1 : Module) (sc1 : Scanner),
    parseNetDeclLoop fuel m kind sc = .ok (m1, sc1) →
    (netNames m).Nodup → (netNames m1).Nodup := by
  intro fuel
  induction fuel with
  | zero =>
    intro m kind sc m1 sc1 h
    simp [parseNetDeclLoop, fuelErr] at h
  | succ fuel ih =>
    intro m kind sc m1 sc1 h hnd
    simp only [parseNetDeclLoop] at h
    split at h
    · cases h
    · rename_i v
      split at h
      · cases h
      · rename_i v2
        split at h
        · cases h
        · rename_i m2 heq
          have hnd2 := addNet_nodup _ _ _ _ _ _ heq hnd
          split at h
          · exact ih _ _ _ _ _ h hnd2
          · split at h
            · cases h
            · simp only [Except.ok.injEq, Prod.mk.injEq] at h
              rw [← h.1]
              exact hnd2

theorem parseNetDecl_nodup (m : Module) (kind : NetDeclKind) (sc : Scanner)
    (m1 : Module) (sc1 : Scanner) (h : parseNetDecl m kind sc = .ok (m1, sc1))
    (hnd : (netNames m).Nodup) : (netNames m1).Nodup :=
  parseNetDeclLoop_nodup _ _ _ _ _ _ h hnd

theorem parseInstance_nets (lib : CellLibrary) (modules : List Module)
    (m : Module) (sc : Scanner) (m1 : Module) (sc1 : Scanner)
    (h : parseInstance lib modules m sc = .ok (m1, sc1)) : m1.nets = m.nets := by
  unfold parseInstance at h
  repeat' split at h
  all_goals cases h
  all_goals rfl

theorem parseModuleStatement_nodup (lib : CellLibrary) (modules : List Module)
    (m : Module) (sc : Scanner) (m1 : Module) (sc1 : Scanner)
    (h : parseModuleStatement lib modules m sc = .ok (m1, sc1))
    (hnd : (netNames m).Nodup) : (netNames m1).Nodup := by
  unfold parseModuleStatement at h
  split at h
  · exact parseNetDecl_nodup _ _ _ _ _ h hnd
  · split at h
    · exact parseNetDecl_nodup _ _ _ _ _ h hnd
    · split at h
      · exact parseNetDecl_nodup _ _ _ _ _ h hnd
      · split at h
        · have := parseAssignDecl_nets _ _ _ _ h
          unfold netNames
          rw [this]
          exact hnd
        · have := parseInstance_nets _ _ _ _ _ _ h
          unfold netNames
          rw [this]
          exact hnd

theorem parseStmtLoop_nodup : ∀ (fuel : Nat) (lib : CellLibrary)
    (modules : List Module) (m : Module) (sc : Scanner) (m1 : Module) (sc1 : Scanner),
    parseStmtLoop fuel lib modules m sc = .ok (m1, sc1) →
    (netNames m).Nodup → (netNames m1).Nodup := by
  intro fuel
  induction fuel with
  | zero =>
    intro lib modules m sc m1 sc1 h
    simp [parseStmtLoop, fuelErr] at h
  | succ fuel ih =>
    intro lib modules m sc m1 sc1 h hnd
    simp only [parseStmtLoop] at h
    split at h
    · simp only [Except.ok.injEq, Prod.mk.injEq] at h
      rw [← h.1]
      exact hnd
    · split at h
      · cases h
      · rename_i m2 sc3 heq
        exact ih _ _ _ _ _ _ h (parseModuleStatement_nodup _ _ _ _ _ _ heq hnd)

theorem parseModule_nodup (lib : CellLibrary) (modules : List Module)
    (sc : Scanner) (m1 : Module) (sc1 : Scanner)
    (h : parseModule lib modules sc = .ok (m1, sc1)) : (netNames m1).Nodup := by
  unfold parseModule at h
  split at h
  · cases h
  · split at h
    · cases h
    · split at h
      · cases h
      · split at h
        · cases h
        · exact parseStmtLoop_nodup _ _ _ _ _ _ _ h (by simp [netNames])

theorem parseModulesLoop_nodup : ∀ (fuel : Nat) (lib : CellLibrary)
    (acc : List Module) (sc : Scanner) (mods : List Module) (sc1 : Scanner),
    parseModulesLoop fuel lib acc sc = .ok (mods, sc1) →
    (∀ m ∈ acc, (netNames m).Nodup) → ∀ m ∈ mods, (netNames m).Nodup := by
  intro fuel
  induction fuel with
  | zero =>
    intro lib acc sc mods sc1 h
    simp [parseModulesLoop, fuelErr] at h
  | succ fuel ih =>
    intro lib acc sc mods sc1 h hacc
    simp only [parseModulesLoop] at h
    split at h
    · simp only [Except.ok.injEq, Prod.mk.injEq] at h
      rw [← h.1]
      exact hacc
    · split at h
      · cases h
      · rename_i m2 sc3 heq
        refine ih _ _ _ _ _ h ?_
        intro m hm
        rcases List.mem_append.mp hm with h1 | h1
        · exact hacc m h1
        · rw [List.mem_singleton.mp h1]
          exact parseModule_nodup _ _ _ _ _ heq

/-- C6: within every Module of a successfully returned Netlist the
declared net names are unique, and declaring the same net name twice in
one module is not a silent overwrite but fails the whole parse with a
ResolutionError whose Pos is that of the second declaration. -/
theorem netNames_unique :
    (∀ (lib : CellLibrary) (sc : Scanner) (nl : Netlist),
        parseNetlist lib sc = .ok nl → ∀ m ∈ nl.modules, (netNames m).Nodup) ∧
    parseNetlist [] (mkScanner "module m(); wire w; wire w; endmodule") =
      .error ⟨.ResolutionError, ⟨0, 25⟩, "duplicate net declaration"⟩ := by
  refine ⟨?_, rfl⟩
  intro lib sc nl h m hm
  unfold parseNetlist at h
  split at h
  · cases h
  · rename_i mods sc2 heq
    simp only [Except.ok.injEq] at h
    rw [← h] at hm
    exact parseModulesLoop_nodup _ _ _ _ _ _ heq (by simp) m hm

/-- Witness for C6 at a concrete input: the single module returned for a
one-wire module has duplicate-free net names. -/
theorem netNames_unique_witness :
    (netNames ⟨"t", [], [⟨"x", .wire, none⟩], [], []⟩).Nodup :=
  netNames_unique.1 [] (mkScanner "module t(); wire x; endmodule")
    ⟨[⟨"t", [], [⟨"x", .wire, none⟩], [], []⟩]⟩ rfl
    ⟨"t", [], [⟨"x", .wire, none⟩], [], []⟩ (List.mem_singleton.mpr rfl)

theorem dropIgnored_nil (fuel ln col : Nat) :
    dropIgnored fuel [] ln col = ([], ln, col) := by
  cases fuel <;> rfl

theorem dropIgnored_ws (f : Nat) (c : Char) (cs1 : List Char) (ln col : Nat)
    (hw : isWs c = true) :
    dropIgnored (f + 1) (c :: cs1) ln col =
      dropIgnored f cs1 (advancePos c ln col).1 (advancePos c ln col).2 := by
  simp only [dropIgnored]
  rw [if_pos hw]

theorem dropIgnored_lineComment (f : Nat) (t : List Char) (ln col : Nat) :
    dropIgnored (f + 1) ('/' :: '/' :: t) ln col =
      dropIgnored f (dropToEol t ln (col + 2)).1 (dropToEol t ln (col + 2)).2.1
        (dropToEol t ln (col + 2)).2.2 := rfl

theorem dropIgnored_blockComment (f : Nat) (t : List Char) (ln col : Nat) :
    dropIgnored (f + 1) ('/' :: '*' :: t) ln col =
      dropIgnored f (dropToTermEnd '/' '0' t ln (col + 2)).1
        (dropToTermEnd '/' '0' t ln (col + 2)).2.1
        (dropToTermEnd '/' '0' t ln (col + 2)).2.2 := rfl

theorem dropIgnored_attrStep (f : Nat) (t : List Char) (ln col : Nat) :
    dropIgnored (f + 1) ('(' :: '*' :: t) ln col =
      dropIgnored f (dropToTermEnd ')' '0' t ln (col + 2)).1
        (dropToTermEnd ')' '0' t ln (col + 2)).2.1
        (dropToTermEnd ')' '0' t ln (col + 2)).2.2 := rfl

theorem dropToEol_all_eof : ∀ (body : List Char), (∀ c ∈ body, c ≠ '\n') →
    ∀ ln col : Nat, ∃ col2, dropToEol body ln col = ([], ln, col2) := by
  intro body
  induction body with
  | nil => intro _ ln col; exact ⟨col, rfl⟩
  | cons c t ih =>
    intro h ln col
    have hc : c ≠ '\n' := h c (List.mem_cons_self c t)
    obtain ⟨col2, ht⟩ := ih (fun d hd => h d (List.mem_cons_of_mem c hd)) ln (col + 1)
    refine ⟨col2, ?_⟩
    simp only [dropToEol]
    rw [if_neg hc]
    exact ht

theorem dropToEol_stops : ∀ (body : List Char), (∀ c ∈ body, c ≠ '\n') →
    ∀ (rest : List Char) (ln col : Nat), ∃ col2,
      dropToEol (body ++ '\n' :: rest) ln col = ('\n' :: rest, ln, col2) := by
  intro body
  induction body with
  | nil => intro _ rest ln col; exact ⟨col, rfl⟩
  | cons c t ih =>
    intro h rest ln col
    have hc : c ≠ '\n' := h c (List.mem_cons_self c t)
    obtain ⟨col2, ht⟩ := ih (fun d hd => h d (List.mem_cons_of_mem c hd)) rest ln (col + 1)
    refine ⟨col2, ?_⟩
    simp only [List.cons_append, dropToEol]
    rw [if_neg hc]
    exact ht

theorem dropToTermEnd_append (t2 : Char) (ht : t2 ≠ '*') :
    ∀ (body : List Char) (prev : Char), hasTermPair t2 prev body = false →
    ∀ (rest : List Char) (ln col : Nat),
    ∃ ln2 col2, dropToTermEnd t2 prev (body ++ '*' :: t2 :: rest) ln col =
      (rest, ln2, col2) := by
  intro body
  induction body with
  | nil =>
    intro prev _ rest ln col
    simp only [List.nil_append, dropToTermEnd]
    rw [if_neg (fun hh => ht hh.2.symm)]
    rw [if_pos (by simp)]
    exact ⟨_, _, rfl⟩
  | cons c t ih =>
    intro prev hp rest ln col
    by_cases hc : prev = '*' ∧ c = t2
    · simp [hasTermPair, hc] at hp
    · simp only [hasTermPair] at hp
      rw [if_neg hc] at hp
      simp only [List.cons_append, dropToTermEnd]
      rw [if_neg hc]
      exact ih c hp rest _ _

theorem ig_drop : ∀ (cs : List Char), IgnorableText cs →
    ∀ (fuel ln col : Nat), cs.length ≤ fuel →
    ∃ ln2 col2, dropIgnored fuel cs ln col = ([], ln2, col2) := by
  intro cs h
  induction h with
  | nil =>
    intro fuel ln col _
    exact ⟨ln, col, dropIgnored_nil fuel ln col⟩
  | ws c cs hws _ ih =>
    intro fuel ln col hf
    cases fuel with
    | zero => simp at hf
    | succ f =>
      rw [dropIgnored_ws f c cs ln col hws]
      exact ih f _ _ (by simp at hf; omega)
  | lineCommentEof body hb =>
    intro fuel ln col hf
    cases fuel with
    | zero => simp at hf
    | succ f =>
      rw [dropIgnored_lineComment]
      obtain ⟨col2, he⟩ := dropToEol_all_eof body hb ln (col + 2)
      rw [he]
      exact ⟨ln, col2, dropIgnored_nil f ln col2⟩
  | lineComment body rest hb _ ih =>
    intro fuel ln col hf
    cases fuel with
    | zero => simp at hf
    | succ f =>
      rw [dropIgnored_lineComment]
      obtain ⟨col2, he⟩ := dropToEol_stops body hb rest ln (col + 2)
      rw [he]
      refine ih f ln col2 ?_
      simp [List.length_append] at hf ⊢
      omega
  | blockComment body rest hb _ ih =>
    intro fuel ln col hf
    cases fuel with
    | zero => simp at hf
    | succ f =>
      rw [dropIgnored_blockComment]
      obtain ⟨ln2, col2, he⟩ := dropToTermEnd_append '/' (by decide) body '0' hb rest ln (col + 2)
      rw [he]
      refine ih f ln2 col2 ?_
      simp [List.length_append] at hf
      omega
  | attr body rest hb _ ih =>
    intro fuel ln col hf
    cases fuel with
    | zero => simp at hf
    | succ f =>
      rw [dropIgnored_attrStep]
      obtain ⟨ln2, col2, he⟩ := dropToTermEnd_append ')' (by decide) body '0' hb rest ln (col + 2)
      rw [he]
      refine ih f ln2 col2 ?_
      simp [List.length_append] at hf
      omega

/-- C7: for every input consisting solely of whitespace, line and block
comments, and attributes, AtEof discards all of it and reports true end
of input, with the remaining text empty and no token ever produced. -/
theorem atEof_ignorable (cs : List Char) (h : IgnorableText cs) (ln col : Nat)
    (la : Option Token) :
    (atEof ⟨cs, ln, col, la⟩).1 = true ∧
    (atEof ⟨cs, ln, col, la⟩).2.rest = [] ∧
    (∀ n : Nat, tokensFrom n ⟨cs, ln, col, none⟩ = []) := by
  obtain ⟨ln2, col2, hd⟩ := ig_drop cs h (cs.length + 1) ln col (Nat.le_succ _)
  have hdc : ∀ x : Option Token,
      dropIgnoredChars ⟨cs, ln, col, x⟩ = ⟨[], ln2, col2, x⟩ := by
    intro x
    simp [dropIgnoredChars, hd]
  refine ⟨?_, ?_, ?_⟩
  · simp [atEof, hdc la]
  · simp [atEof, hdc la]
  · intro n
    cases n with
    | zero => rfl
    | succ n =>
      simp only [tokensFrom, pop, peek, peekInternal, hdc none]

/-- Witness for C7 at a concrete ignorable input made of whitespace and a
line comment. -/
theorem atEof_ignorable_witness :
    (atEof ⟨" //c".toList, 0, 0, none⟩).1 = true ∧
    (atEof ⟨" //c".toList, 0, 0, none⟩).2.rest = [] ∧
    (∀ n : Nat, tokensFrom n ⟨" //c".toList, 0, 0, none⟩ = []) :=
  atEof_ignorable (" //c".toList)
    (.ws ' ' _ (by decide) (.lineCommentEof ['c'] (by decide))) 0 0 none

theorem dropToEol_len : ∀ (cs : List Char) (ln col : Nat),
    (dropToEol cs ln col).1.length ≤ cs.length := by
  intro cs
  induction cs with
  | nil => intro ln col; simp [dropToEol]
  | cons c t ih =>
    intro ln col
    simp only [dropToEol]
    split
    · simp
    · exact le_trans (ih ln (col + 1)) (by simp)

theorem dropToTermEnd_len (t2 : Char) : ∀ (cs : List Char) (prev : Char) (ln col : Nat),
    (dropToTermEnd t2 prev cs ln col).1.length ≤ cs.length := by
  intro cs
  induction cs with
  | nil => intro prev ln col; simp [dropToTermEnd]
  | cons c t ih =>
    intro prev ln col
    simp only [dropToTermEnd]
    split
    · simp
    · exact le_trans (ih c _ _) (by simp)

theorem dropIgnored_stop (f : Nat) (c : Char) (cs1 : List Char) (ln col : Nat)
    (hw : ¬ isWs c = true)
    (hs : c = '/' → cs1.head? ≠ some '/' ∧ cs1.head? ≠ some '*')
    (hp : c = '(' → cs1.head? ≠ some '*') :
    dropIgnored f (c :: cs1) ln col = (c :: cs1, ln, col) := by
  cases f with
  | zero => rfl
  | succ f =>
    simp only [dropIgnored]
    rw [if_neg hw]
    by_cases hc : c = '/'
    · rw [if_pos hc]
      obtain ⟨h1, h2⟩ := hs hc
      subst hc
      cases cs1 with
      | nil => rfl
      | cons d cs2 =>
        simp only [List.head?] at h1 h2
        split
        · rename_i heq
          cases heq
          simp at h1
        · rename_i heq
          cases heq
          simp at h2
        · rfl
    · rw [if_neg hc]
      by_cases hq : c = '('
      · rw [if_pos hq]
        subst hq
        have h2 := hp rfl
        cases cs1 with
        | nil => rfl
        | cons d cs2 =>
          simp only [List.head?] at h2
          split
          · rename_i heq
            cases heq
            simp at h2
          · rfl
      · rw [if_neg hq]

theorem dropIgnored_stable : ∀ (fuel : Nat) (cs : List Char) (ln col : Nat),
    cs.length ≤ fuel → ∀ fuel2 : Nat,
      dropIgnored fuel2 (dropIgnored fuel cs ln col).1
        (dropIgnored fuel cs ln col).2.1 (dropIgnored fuel cs ln col).2.2 =
      dropIgnored fuel cs ln col := by
  intro fuel
  induction fuel with
  | zero =>
    intro cs ln col hf fuel2
    have hcs : cs = [] := List.length_eq_zero.mp (Nat.le_zero.mp hf)
    subst hcs
    rw [dropIgnored_nil, dropIgnored_nil]
  | succ f ih =>
    intro cs ln col hf fuel2
    cases cs with
    | nil =>
      rw [dropIgnored_nil, dropIgnored_nil]
    | cons c cs1 =>
      by_cases hw : isWs c = true
      · rw [dropIgnored_ws f c cs1 ln col hw]
        exact ih cs1 _ _ (by simp at hf; omega) fuel2
      · by_cases hc : c = '/'
        · subst hc
          cases cs1 with
          | nil =>
            rw [dropIgnored_stop (f + 1) _ _ _ _ hw (by simp) (by simp),
              dropIgnored_stop fuel2 _ _ _ _ hw (by simp) (by simp)]
          | cons d cs2 =>
            by_cases hd : d = '/'
            · subst hd
              rw [dropIgnored_lineComment]
              refine ih _ _ _ ?_ fuel2
              have := dropToEol_len cs2 ln (col + 2)
              simp at hf
              omega
            · by_cases he : d = '*'
              · subst he
                rw [dropIgnored_blockComment]
                refine ih _ _ _ ?_ fuel2
                have := dropToTermEnd_len '/' cs2 '0' ln (col + 2)
                simp at hf
                omega
              · rw [dropIgnored_stop (f + 1) _ _ _ _ hw
                  (by simp [List.head?]; exact ⟨hd, he⟩)
                  (by simp),
                  dropIgnored_stop fuel2 _ _ _ _ hw
                  (by simp [List.head?]; exact ⟨hd, he⟩)
                  (by simp)]
        · by_cases hq : c = '('
          · subst hq
            cases cs1 with
            | nil =>
              rw [dropIgnored_stop (f + 1) _ _ _ _ hw (by simp) (by simp),
                dropIgnored_stop fuel2 _ _ _ _ hw (by simp) (by simp)]
            | cons d cs2 =>
              by_cases he : d = '*'
              · subst he
                rw [dropIgnored_attrStep]
                refine ih _ _ _ ?_ fuel2
                have := dropToTermEnd_len ')' cs2 '0' ln (col + 2)
                simp at hf
                omega
              · rw [dropIgnored_stop (f + 1) _ _ _ _ hw (by simp [hc])
                  (by simp [List.head?]; exact he),
                  dropIgnored_stop fuel2 _ _ _ _ hw (by simp [hc])
                  (by simp [List.head?]; exact he)]
          · rw [dropIgnored_stop (f + 1) _ _ _ _ hw (by simp [hc]) (by simp [hq]),
              dropIgnored_stop fuel2 _ _ _ _ hw (by simp [hc]) (by simp [hq])]

theorem dropIgnoredChars_lookahead (s : Scanner) :
    (dropIgnoredChars s).lookahead = s.lookahead := rfl

theorem dropIgnoredChars_la (s : Scanner) (x : Option Token) :
    dropIgnoredChars { s with lookahead := x } =
      { dropIgnoredChars s with lookahead := x } := rfl

theorem dropIgnoredChars_idem (s : Scanner) :
    dropIgnoredChars (dropIgnoredChars s) = dropIgnoredChars s := by
  have h := dropIgnored_stable (s.rest.length + 1) s.rest s.lineno s.colno
    (Nat.le_succ _)
    ((dropIgnored (s.rest.length + 1) s.rest s.lineno s.colno).1.length + 1)
  simp only [dropIgnoredChars]
  rw [h]

theorem peekInternal_dropIgnored (s : Scanner) :
    peekInternal (dropIgnoredChars s) = peekInternal s := by
  unfold peekInternal
  rw [dropIgnoredChars_idem]

theorem peek_dropIgnored (s : Scanner) (h : s.lookahead = none) :
    peek (dropIgnoredChars s) = peek s := by
  have h2 : (dropIgnoredChars s).lookahead = none := by
    rw [dropIgnoredChars_lookahead, h]
  unfold peek
  rw [h, h2, peekInternal_dropIgnored]

theorem pop_dropIgnored (s : Scanner) (h : s.lookahead = none) :
    pop (dropIgnoredChars s) = pop s := by
  unfold pop
  rw [peek_dropIgnored s h]

theorem tokensFrom_dropIgnored (n : Nat) (s : Scanner) (h : s.lookahead = none) :
    tokensFrom n (dropIgnoredChars s) = tokensFrom n s := by
  cases n with
  | zero => rfl
  | succ n =>
    simp only [tokensFrom]
    rw [pop_dropIgnored s h]

/-- C10: AtEof never consumes a token: it preserves the lookahead slot,
the sequence of tokens subsequently produced by popping is identical
before and after the call, and AtEof is idempotent, returning the same
answer and the same state when called again. -/
theorem atEof_frame (s : Scanner) :
    ((atEof s).2).lookahead = s.lookahead ∧
    (∀ n : Nat, tokensFrom n ((atEof s).2) = tokensFrom n s) ∧
    atEof ((atEof s).2) = ((atEof s).1, (atEof s).2) := by
  have h2 : (atEof s).2 = dropIgnoredChars s := rfl
  refine ⟨by rw [h2, dropIgnoredChars_lookahead], ?_, ?_⟩
  · intro n
    rw [h2]
    cases hla : s.lookahead with
    | none => exact tokensFrom_dropIgnored n s hla
    | some t =>
      cases n with
      | zero => rfl
      | succ n =>
        have hla2 : (dropIgnoredChars s).lookahead = some t := by
          rw [dropIgnoredChars_lookahead, hla]
        have hp1 : pop s = .ok (t, { s with lookahead := none }) := by
          simp [pop, peek, hla]
        have hp2 : pop (dropIgnoredChars s) =
            .ok (t, { dropIgnoredChars s with lookahead := none }) := by
          simp [pop, peek, hla2]
        simp only [tokensFrom, hp1, hp2]
        rw [← dropIgnoredChars_la s none]
        rw [tokensFrom_dropIgnored n { s with lookahead := none } rfl]
  · rw [h2]
    show ((dropIgnoredChars (dropIgnoredChars s)).rest.isEmpty,
      dropIgnoredChars (dropIgnoredChars s)) = _
    rw [dropIgnoredChars_idem]
    rfl

end NetlistRtl
